import Mathlib

/-
Verification of the appifi recursive-copy engine (vfs/forest.js, the File
state machine, and the Directory state machine) against its design
specification.  JavaScript objects are embedded as Lean structures, JS `Set`
objects as insertion-ordered duplicate-free lists, and the asynchronous
collaborator completions as explicit result arguments to the completion
callbacks.
-/

namespace Appifi

/-- A JS `Error` object together with the optional `code` / `xcode` tags the
copy engine branches on (`err.code === "EEXIST"`, `err.xcode === "ECONFLICT"`). -/
structure JsError where
  message : String
  code : Option String := none
  xcode : Option String := none
deriving Repr, DecidableEq

/-- JS `Set.prototype.add` on an insertion-ordered set of node ids:
a no-op when the element is already present. -/
def setAdd (s : List Nat) (x : Nat) : List Nat :=
  if x ∈ s then s else s ++ [x]

/-- JS `Set.prototype.delete`. -/
def setDel (s : List Nat) (x : Nat) : List Nat :=
  s.filter (fun y => y ≠ x)

/-- An xstat record as the collaborators return it: a stat with a stamped uuid. -/
structure Xstat where
  uuid : Nat
  name : String := ""
deriving Repr, DecidableEq

/- ------------------------------------------------------------------
   The File state machine (second document of src/src/vfs/forest.js).
   ------------------------------------------------------------------ -/

/-- The fields of the parent Directory that `Working.enter` reads
(`this.file.parent.srcUUID`, `this.file.parent.dstUUID`). -/
structure ParentRef where
  srcUUID : Nat
  dstUUID : Option Nat := none
deriving Repr, DecidableEq

/-- A File node: `constructor(ctx, parent, srcUUID, srcName)` stores the source
uuid and name; `policy` is assigned only by `File.setPolicy`.  `id` models the
JS object identity used by the Forest bucket sets. -/
structure FileNode where
  id : Nat
  parent : ParentRef
  srcUUID : Nat
  srcName : String
  policy : Option String := none
deriving Repr, DecidableEq

/-- `File.getPolicy`: `this.policy || this.ctx.policies.file || null`. -/
def fileGetPolicy (ctxFilePolicy : Option String) (f : FileNode) : Option String :=
  f.policy.orElse (fun _ => ctxFilePolicy)

/-- The argument tuple `Working.enter` passes to the copy collaborator
`this.file.ctx.cpFile(srcDirUUID, fileUUID, fileName, dstDirUUID, policy, cb)`. -/
structure CpFileArgs where
  srcDirUUID : Nat
  fileUUID : Nat
  fileName : String
  dstDirUUID : Option Nat
  policy : Option String
deriving Repr, DecidableEq

/-- The invocation built in `Working.enter`: each field is read off the file
node exactly as in the source (`let srcDirUUID = this.file.parent.srcUUID` ...). -/
def workingInvocation (ctxFilePolicy : Option String) (f : FileNode) : CpFileArgs :=
  { srcDirUUID := f.parent.srcUUID
    fileUUID := f.srcUUID
    fileName := f.srcName
    dstDirUUID := f.parent.dstUUID
    policy := fileGetPolicy ctxFilePolicy f }

/-- The `setState` target chosen by the `cpFile` completion callback, with the
arguments the callback passes along to the next state's constructor. -/
inductive FTransition
  | toConflict (err : JsError) (policy : Option String)
  | toFailed (err : JsError)
  | toFinished
deriving Repr, DecidableEq

/-- The `cpFile` completion callback of `Working.enter`: a failure tagged
`err.xcode === "ECONFLICT"` selects `Conflict(err, policy)`, any other failure
selects `Failed(err)`, success selects `Finished`. -/
def workingCpFileCallback (policy : Option String) (r : Except JsError Xstat) :
    FTransition :=
  match r with
  | .error e => if e.xcode = some "ECONFLICT" then .toConflict e policy else .toFailed e
  | .ok _ => .toFinished

/-- The five lifecycle states of the File machine. -/
inductive FileStateTag
  | pending
  | working
  | conflict
  | failed
  | finished
deriving Repr, DecidableEq

/-- The Forest-side buckets the File machine registers in (the `ctx` of the
File machine exposes `indexPendingFile` / `unindexPendingFile` and so on). -/
structure FileBuckets where
  pendingFiles : List Nat := []
  workingFiles : List Nat := []
  conflictFiles : List Nat := []
  failedFiles : List Nat := []
  finishedFiles : List Nat := []
deriving Repr, DecidableEq

/-- The `enter` side effect of each File state class: `Pending.enter` calls
`indexPendingFile`, `Working.enter` calls `indexWorkingFile`, `Conflict.enter`
calls `indexConflictFile`, `Failed.enter` calls `indexFailedFile`,
`Finished.enter` calls `indexFinishedFile`. -/
def fileStateIndexOnEnter : FileStateTag → Nat → FileBuckets → FileBuckets
  | .pending, fid, b => { b with pendingFiles := setAdd b.pendingFiles fid }
  | .working, fid, b => { b with workingFiles := setAdd b.workingFiles fid }
  | .conflict, fid, b => { b with conflictFiles := setAdd b.conflictFiles fid }
  | .failed, fid, b => { b with failedFiles := setAdd b.failedFiles fid }
  | .finished, fid, b => { b with finishedFiles := setAdd b.finishedFiles fid }

/-- The `exit` side effect of each File state class.  Note the source:
`Failed.exit` calls `this.file.ctx.unindexWorkingFile(this.file)` — the
working-file bucket, not the failed-file bucket. -/
def fileStateUnindexOnExit : FileStateTag → Nat → FileBuckets → FileBuckets
  | .pending, fid, b => { b with pendingFiles := setDel b.pendingFiles fid }
  | .working, fid, b => { b with workingFiles := setDel b.workingFiles fid }
  | .conflict, fid, b => { b with conflictFiles := setDel b.conflictFiles fid }
  | .failed, fid, b => { b with workingFiles := setDel b.workingFiles fid }
  | .finished, fid, b => { b with finishedFiles := setDel b.finishedFiles fid }

/-- Modelled from the spec: `Node.destroy` (module `./node`, not in src).  Per
spec section 2 and 3, destroy detaches the node from its parent's children
list; the global id map indexes directories only, so a File never appears there. -/
def nodeDestroyDetach (parentChildren : List Nat) (nodeId : Nat) : List Nat :=
  setDel parentChildren nodeId

/-- `File.destroy`: `this.state.destroy()` (which runs the current state's
`exit`) followed by `super.destroy(detach)` (detach from the parent). -/
def fileDestroy (tag : FileStateTag) (fid : Nat) (b : FileBuckets)
    (parentChildren : List Nat) : FileBuckets × List Nat :=
  (fileStateUnindexOnExit tag fid b, nodeDestroyDetach parentChildren fid)

/-- The fields assigned on a File-machine `Conflict` state object: the base
`State` constructor assigns `this.file` only, and `Conflict.enter()` takes no
parameters (the `err, policy` arguments passed by `setState` are dropped).  In
particular neither a `policy` nor a `dir` field is ever assigned on this
object. -/
structure FileConflictState where
  file : FileNode
  policy : Option String := none
  dir : Option Nat := none
deriving Repr, DecidableEq

/-- The `Conflict` state object as the File machine actually constructs it:
only `file` is set. -/
def mkFileConflict (f : FileNode) : FileConflictState :=
  { file := f }

/-- Result of calling `resolve()` on a File in Conflict. -/
inductive ResolveOutcome
  | threw (msg : String)
  | reenteredWorking
  | noop
deriving Repr, DecidableEq

/-- `Conflict.resolve` (File machine): the source reads
`this.policy !== this.dir.getPolicy()`.  A File-machine state object has no
`dir` field, so the member access `this.dir.getPolicy` throws a TypeError.
(Were `dir` present, the strict comparison of `this.policy` against the
2-element policy array could never be `===`, so the branch would always enter
Working.) -/
def conflictFileResolve (st : FileConflictState) : ResolveOutcome :=
  match st.dir with
  | none => .threw "TypeError: this.dir is undefined"
  | some _ => .reenteredWorking

/- ------------------------------------------------------------------
   The Directory state machine (src/unnamed/part_001).
   ------------------------------------------------------------------ -/

/-- One element of the `xstats` listing returned by `vfs.readdir`:
`Read.enter` partitions the listing on `x.type`. -/
structure Entry where
  uuid : Nat
  name : String := ""
  type : String
deriving Repr, DecidableEq

/-- Whether a spawned child node has reached its own terminal error state
(`activeC` = still running, `erroredC` = emitted `error`).  The Directory code
itself only ever inspects `children.length`. -/
inductive ChildStatus
  | activeC
  | erroredC
deriving Repr, DecidableEq

/-- A child node spawned by `Read.next`.  `seq` models JS object identity
(children are distinct objects even when source entries repeat). -/
structure Child where
  seq : Nat
  uuid : Nat
  isFile : Bool
  status : ChildStatus
deriving Repr, DecidableEq

/-- The Directory-side data of the `Read` state: the two entry queues
(`this.dir.fstats`, `this.dir.dstats`), the children list, and whether
`setState(Finished)` has run. -/
structure ReadSt where
  fstats : List Entry
  dstats : List Entry
  children : List Child
  finished : Bool
  nextSeq : Nat
deriving Repr, DecidableEq

/-- `Read.next`: pop the next file entry and construct a File child; once the
file queue is empty pop the next subdirectory entry and construct a Directory
child; when both queues are empty and `this.dir.children.length === 0`,
`setState(Finished)`. -/
def readNext (st : ReadSt) : ReadSt :=
  match st.fstats with
  | fstat :: rest =>
    { st with
      fstats := rest
      children := st.children ++ [⟨st.nextSeq, fstat.uuid, true, .activeC⟩]
      nextSeq := st.nextSeq + 1 }
  | [] =>
    match st.dstats with
    | dstat :: rest =>
      { st with
        dstats := rest
        children := st.children ++ [⟨st.nextSeq, dstat.uuid, false, .activeC⟩]
        nextSeq := st.nextSeq + 1 }
    | [] => if st.children = [] then { st with finished := true } else st

/-- `Read.enter(xstats)`: `dstats = xstats.filter(x => x.type === "directory")`,
`fstats = xstats.filter(x => x.type === "file")`, then `this.next()`. -/
def readEnter (xstats : List Entry) : ReadSt :=
  readNext
    { fstats := xstats.filter (fun x => x.type = "file")
      dstats := xstats.filter (fun x => x.type = "directory")
      children := []
      finished := false
      nextSeq := 0 }

/-- The terminal notification a child delivers to the `Read` state's
listeners: the `finish` event or the `error` event. -/
inductive Outcome
  | finishO
  | errorO
deriving Repr, DecidableEq

/-- The child that emitted `error` transitions to its own Failed state but is
left in the children list (the `error` listener calls `this.next()` without destroying the child). -/
def markActiveErrored (cs : List Child) : List Child :=
  cs.map (fun c => if c.status = ChildStatus.activeC then
    { c with status := ChildStatus.erroredC } else c)

/-- The child that emitted `finish` is destroyed with detach
(`file.destroy(true)`), removing it from the children list. -/
def dropActive (cs : List Child) : List Child :=
  cs.filter (fun c => c.status ≠ ChildStatus.activeC)

/-- A terminal notification from the (unique) running child:
`finish` → destroy the child, then `this.next()`;
`error` → the child stays in the children list, then `this.next()`.
When no child is running no notification can arrive (no-op). -/
def onChildNotification (st : ReadSt) (o : Outcome) : ReadSt :=
  if st.children.any (fun c => c.status = ChildStatus.activeC) then
    match o with
    | .finishO => readNext { st with children := dropActive st.children }
    | .errorO => readNext { st with children := markActiveErrored st.children }
  else st

/-- Fold a sequence of child notifications over the Read state. -/
def runRead (st : ReadSt) (os : List Outcome) : ReadSt :=
  os.foldl onChildNotification st

/-- The Read states reachable from `Read.enter(xstats)` by child
notifications. -/
inductive RRead (xstats : List Entry) : ReadSt → Prop
  | enter : RRead xstats (readEnter xstats)
  | step {st : ReadSt} (o : Outcome) : RRead xstats st →
      RRead xstats (onChildNotification st o)

/-- Number of still-running children in a children list. -/
def countActive : List Child → Nat
  | [] => 0
  | c :: rest =>
    (if c.status = ChildStatus.activeC then 1 else 0) + countActive rest

/-- Number of children parked in their own terminal error state. -/
def countErrored : List Child → Nat
  | [] => 0
  | c :: rest =>
    (if c.status = ChildStatus.erroredC then 1 else 0) + countErrored rest

/-- Number of still-running children of the Read state. -/
def activeCount (st : ReadSt) : Nat :=
  countActive st.children

/-- Number of errored children of the Read state. -/
def erroredCount (st : ReadSt) : Nat :=
  countErrored st.children

/- ------------------------------------------------------------------
   Directory policy slots, setPolicy and retry (src/unnamed/part_001).
   ------------------------------------------------------------------ -/

/-- The lifecycle states of the Directory machine; `Conflict.enter(err, policy)`
stores both arguments on the state object (`this.err = err;
this.policy = policy`). -/
inductive DirState
  | pendingD
  | makingD
  | conflictD (err : JsError) (policy : Option String × Option String)
  | readingD
  | readD
  | failedD
  | finishedD
deriving Repr, DecidableEq

/-- A Directory node for the policy claims: the 2-slot policy array
`[samePolicy, diffPolicy]` and the current state.  `Directory.retry` also
recurses into `this.children` first; a directory sitting in Conflict came from
Making and has spawned no children yet, and a child's retry never modifies
this node's own state, so children are not modelled here. -/
structure DirNode where
  srcUUID : Nat
  dstUUID : Option Nat := none
  policy : Option String × Option String
  state : DirState
deriving Repr, DecidableEq

/-- `State.retry` of the Directory machine: only the `Conflict` subclass
overrides it, with an unconditional `this.setState(Making)`. -/
def dirStateRetry : DirState → DirState
  | .conflictD _ _ => .makingD
  | s => s

/-- `Directory.retry`: `this.state.retry()` (children recursion omitted as it
cannot touch this node's state). -/
def dirRetry (d : DirNode) : DirNode :=
  { d with state := dirStateRetry d.state }

/-- `Directory.setPolicy(type, policy)`: write slot 0 when
`type === "same"`, slot 1 otherwise, then `this.retry()` — the source performs
no comparison with the slot's previous value. -/
def dirSetPolicy (d : DirNode) (kind : String) (p : String) : DirNode :=
  let d2 :=
    if kind = "same" then { d with policy := (some p, d.policy.2) }
    else { d with policy := (d.policy.1, some p) }
  dirRetry d2

/-- `Directory.getPolicy`: fill unset slots from `ctx.policies.dir`. -/
def dirGetPolicy (ctxDirPolicy : Option String × Option String) (d : DirNode) :
    Option String × Option String :=
  (d.policy.1.orElse (fun _ => ctxDirPolicy.1),
   d.policy.2.orElse (fun _ => ctxDirPolicy.2))

/- ------------------------------------------------------------------
   Forest: bucket sets and the two bounded-concurrency schedulers
   (src/src/vfs/forest.js).
   ------------------------------------------------------------------ -/

/-- The Forest bucket sets relevant to the two schedulers: three directory
buckets (`initDirs`, `pendingDirs`, `readingDirs`, holding uuids) and three
file buckets (`hashlessFiles`, `hashingFiles`, `hashFailedFiles`). -/
structure Forest where
  initDirs : List Nat := []
  pendingDirs : List Nat := []
  readingDirs : List Nat := []
  hashlessFiles : List Nat := []
  hashingFiles : List Nat := []
  hashFailedFiles : List Nat := []
deriving Repr, DecidableEq

/-- Modelled from the spec: `dir.read()` on the vfs `Directory` class (module
`./directory`, not in src).  Per spec section 4.3 the scheduling pass "pulls
directories out of the needs-probing bucket and issues a probe/read request",
so a read request moves the directory from the init bucket into the reading
bucket (`dirExitInit` / `dirEnterReading` are the Forest methods in src). -/
def dirRead (f : Forest) (u : Nat) : Forest :=
  { f with initDirs := setDel f.initDirs u, readingDirs := setAdd f.readingDirs u }

/-- The `while` loop of `scheduleDirRead`:
`while (initDirs.size > 0 && readingDirs.size < 6)` take the first element of
`initDirs` (JS `Set` iteration is insertion-ordered) and issue `dir.read()`.
The fuel argument bounds the iteration count for termination; `scheduleDirRead`
supplies `initDirs.length`, enough to drain the bucket. -/
def scheduleDirReadLoop : Nat → Forest → Forest
  | 0, f => f
  | fuel + 1, f =>
    match f.initDirs with
    | [] => f
    | u :: _ =>
      if f.readingDirs.length < 6 then scheduleDirReadLoop fuel (dirRead f u)
      else f

/-- `scheduleDirRead` (forest.js lines 213-225), the ceiling-6 pass. -/
def scheduleDirRead (f : Forest) : Forest :=
  scheduleDirReadLoop f.initDirs.length f

/-- Modelled from the spec: `file.calcFingerprint()` on the vfs File class
(not in src).  Per spec section 4.3 the hash scheduler starts hashing a
hashless file, moving it from the hashless bucket into the hashing bucket. -/
def calcFingerprint (f : Forest) (u : Nat) : Forest :=
  { f with hashlessFiles := setDel f.hashlessFiles u,
           hashingFiles := setAdd f.hashingFiles u }

/-- The `while` loop of `scheduleFileHash`:
`while (hashlessFiles.size > 0 && hashingFiles.size < 2)`. -/
def scheduleFileHashLoop : Nat → Forest → Forest
  | 0, f => f
  | fuel + 1, f =>
    match f.hashlessFiles with
    | [] => f
    | u :: _ =>
      if f.hashingFiles.length < 2 then scheduleFileHashLoop fuel (calcFingerprint f u)
      else f

/-- `scheduleFileHash` (forest.js lines 145-153), the ceiling-2 pass. -/
def scheduleFileHash (f : Forest) : Forest :=
  scheduleFileHashLoop f.hashlessFiles.length f

/-- The Forest with all buckets empty (the constructor state). -/
def emptyForest : Forest := {}

/-- One observable event of a Forest execution: a directory becoming eligible
for probing (`dirEnterInit`), a read completing (`dirExitReading`), pending
bucket churn, a file gaining or finishing a hash, and the two coalesced
scheduler passes.  Directories enter the reading bucket only through a
scheduling pass, and files enter the hashing bucket only through a scheduling
pass (the vfs node classes, not in src, request reads and hashes exclusively
via the Forest schedulers per spec section 4.3). -/
inductive FStep : Forest → Forest → Prop
  | dirEnterInit (f : Forest) (u : Nat) :
      FStep f { f with initDirs := setAdd f.initDirs u }
  | dirExitInit (f : Forest) (u : Nat) :
      FStep f { f with initDirs := setDel f.initDirs u }
  | dirEnterPending (f : Forest) (u : Nat) :
      FStep f { f with pendingDirs := setAdd f.pendingDirs u }
  | dirExitPending (f : Forest) (u : Nat) :
      FStep f { f with pendingDirs := setDel f.pendingDirs u }
  | dirExitReading (f : Forest) (u : Nat) :
      FStep f { f with readingDirs := setDel f.readingDirs u }
  | schedDirPass (f : Forest) :
      FStep f (scheduleDirRead f)
  | fileEnterHashless (f : Forest) (u : Nat) :
      FStep f { f with hashlessFiles := setAdd f.hashlessFiles u }
  | fileExitHashless (f : Forest) (u : Nat) :
      FStep f { f with hashlessFiles := setDel f.hashlessFiles u }
  | fileExitHashing (f : Forest) (u : Nat) :
      FStep f { f with hashingFiles := setDel f.hashingFiles u }
  | fileEnterHashFailed (f : Forest) (u : Nat) :
      FStep f { f with hashFailedFiles := setAdd f.hashFailedFiles u }
  | fileExitHashFailed (f : Forest) (u : Nat) :
      FStep f { f with hashFailedFiles := setDel f.hashFailedFiles u }
  | schedHashPass (f : Forest) :
      FStep f (scheduleFileHash f)

/-- Forest states reachable from the constructor state. -/
inductive ForestReachable : Forest → Prop
  | start : ForestReachable emptyForest
  | step {f g : Forest} : ForestReachable f → FStep f g → ForestReachable g

/- ------------------------------------------------------------------
   The request-then-run-on-next-tick debounce (reqSchedDirRead /
   reqSchedFileHash, forest.js lines 139-143 and 201-205).
   ------------------------------------------------------------------ -/

/-- The debounce state of the two schedulers: the one-shot flags
(`this.dirReadScheduled`, `this.fileHashScheduled`) together with a count of
`process.nextTick` callbacks currently enqueued for each pass. -/
structure TickQueue where
  dirReadScheduled : Bool := false
  fileHashScheduled : Bool := false
  dirPassQueue : Nat := 0
  hashPassQueue : Nat := 0
deriving Repr, DecidableEq

/-- `reqSchedDirRead`: if already scheduled do nothing, else set the flag and
enqueue one `process.nextTick(() => this.scheduleDirRead())`. -/
def reqSchedDirRead (t : TickQueue) : TickQueue :=
  if t.dirReadScheduled then t
  else { t with dirReadScheduled := true, dirPassQueue := t.dirPassQueue + 1 }

/-- `reqSchedFileHash`: same pattern for the hash scheduler. -/
def reqSchedFileHash (t : TickQueue) : TickQueue :=
  if t.fileHashScheduled then t
  else { t with fileHashScheduled := true, hashPassQueue := t.hashPassQueue + 1 }

/-- A bucket-membership change notification within one execution turn: every
`dirEnter*/dirExit*` method calls `reqSchedDirRead`, every file hash bucket
change calls `reqSchedFileHash`. -/
inductive Notif
  | dirNotif
  | fileNotif
deriving Repr, DecidableEq

/-- Deliver one notification to the debounce state. -/
def notifyOne (t : TickQueue) (n : Notif) : TickQueue :=
  match n with
  | .dirNotif => reqSchedDirRead t
  | .fileNotif => reqSchedFileHash t

/-- Deliver a burst of notifications occurring within one execution turn. -/
def notifyBurst (t : TickQueue) (ns : List Notif) : TickQueue :=
  ns.foldl notifyOne t

/- ------------------------------------------------------------------
   createRoot (forest.js lines 227-238).
   ------------------------------------------------------------------ -/

/-- Lifecycle phase of a vfs root Directory for the createRoot claim: either
still in its creation phase (Pending/Making) or already past it. -/
inductive VPhase
  | creationPending
  | creationMaking
  | pastCreation
deriving Repr, DecidableEq

/-- Modelled from the spec: the vfs `Directory` object built by
`new Directory(this, null, xstat)` (module `./directory`, not in src).  Per
spec sections 3 and 4.3, supplying an existing xstat at construction skips the
creation phase, and construction registers the directory in the global id map
via `indexDirectory`. -/
structure VDir where
  uuid : Nat
  phase : VPhase
deriving Repr, DecidableEq

/-- Modelled from the spec: the vfs Directory constructor applied to the xstat
of an already-materialized directory yields a node past the creation phase. -/
def vdirNew (x : Xstat) : VDir :=
  { uuid := x.uuid, phase := .pastCreation }

/-- Modelled from the spec: `forceXstat(dirPath, { uuid })` (lib/xstat, not in
src) stamps the requested uuid onto the directory and returns its xstat. -/
def forceXstatModel (requested : Nat) : Xstat :=
  { uuid := requested }

/-- An association map with JS `Map.set` semantics. -/
def mapSet (m : List (Nat × VDir)) (k : Nat) (v : VDir) : List (Nat × VDir) :=
  (k, v) :: m.filter (fun p => p.1 ≠ k)

/-- JS `Map.get`. -/
def mapLookup (m : List (Nat × VDir)) (k : Nat) : Option VDir :=
  (m.find? (fun p => p.1 = k)).map Prod.snd

/-- The Forest maps touched by `createRoot`: `this.roots` (drive-id → root
Directory) and `this.uuidMap` (uuid → Directory, maintained by
`indexDirectory`). -/
structure CRForest where
  roots : List (Nat × VDir) := []
  uuidMap : List (Nat × VDir) := []
deriving Repr, DecidableEq

/-- `createRoot(uuid, callback)`: `mkdirp` the drive directory (outcome given
by `mkdirpErr`), `forceXstat` it with the drive uuid (outcome `forceErr`),
construct the root Directory from the xstat (which registers it in the uuid
map), then `this.roots.set(uuid, root)` and call back with the root. -/
def createRoot (f : CRForest) (uuid : Nat) (mkdirpErr : Option JsError)
    (forceErr : Option JsError) : Except JsError (CRForest × VDir) :=
  match mkdirpErr with
  | some e => .error e
  | none =>
    match forceErr with
    | some e => .error e
    | none =>
      let xstat := forceXstatModel uuid
      let root := vdirNew xstat
      let f1 := { f with uuidMap := mapSet f.uuidMap root.uuid root }
      let f2 := { f1 with roots := mapSet f1.roots uuid root }
      .ok (f2, root)

/- ------------------------------------------------------------------
   Theorems.
   ------------------------------------------------------------------ -/

/-- C1: For every File in the Working state, the copy collaborator is invoked
with (source directory id, source file id, source file name, destination
directory id, resolved policy); if the invocation succeeds the File
transitions to Finished; if it fails with an error tagged as a naming/content
conflict (`xcode === "ECONFLICT"`) the File transitions to Conflict carrying
that error and the policy; on any other failure it transitions to Failed
carrying the error. -/
theorem working_copy_contract (ctxFilePolicy : Option String) (f : FileNode)
    (r : Except JsError Xstat) :
    workingInvocation ctxFilePolicy f =
      ⟨f.parent.srcUUID, f.srcUUID, f.srcName, f.parent.dstUUID,
        fileGetPolicy ctxFilePolicy f⟩ ∧
    (∀ x, r = .ok x →
      workingCpFileCallback (fileGetPolicy ctxFilePolicy f) r =
        FTransition.toFinished) ∧
    (∀ e, r = .error e → e.xcode = some "ECONFLICT" →
      workingCpFileCallback (fileGetPolicy ctxFilePolicy f) r =
        FTransition.toConflict e (fileGetPolicy ctxFilePolicy f)) ∧
    (∀ e, r = .error e → e.xcode ≠ some "ECONFLICT" →
      workingCpFileCallback (fileGetPolicy ctxFilePolicy f) r =
        FTransition.toFailed e) := by
  refine ⟨rfl, ?_, ?_, ?_⟩
  · rintro x rfl
    rfl
  · rintro e rfl h
    simp [workingCpFileCallback, h]
  · rintro e rfl h
    simp [workingCpFileCallback, h]

/-- Witness for C1: a copy failure tagged ECONFLICT on a concrete file selects
the Conflict transition with the error and the resolved policy. -/
theorem working_copy_contract_witness :
    workingCpFileCallback (some "keep")
        (Except.error { message := "conflict", xcode := some "ECONFLICT" }) =
      FTransition.toConflict { message := "conflict", xcode := some "ECONFLICT" }
        (some "keep") :=
  (working_copy_contract (some "keep")
      { id := 1, parent := { srcUUID := 2, dstUUID := some 3 }, srcUUID := 4,
        srcName := "a.txt", policy := some "keep" }
      (Except.error { message := "conflict", xcode := some "ECONFLICT" })).2.2.1
    _ rfl rfl

/-- C8 (code bug): `Conflict.resolve` on the File machine reads
`this.dir.getPolicy()`, but no File-machine state object ever assigns a `dir`
field, so every `resolve()` call on a File in Conflict throws a TypeError
instead of comparing policies and re-entering Working. -/
theorem file_conflict_resolve_throws (f : FileNode) :
    conflictFileResolve (mkFileConflict f) =
      ResolveOutcome.threw "TypeError: this.dir is undefined" := rfl

/-- C9 (code bug): `Failed.exit` of the File machine calls
`unindexWorkingFile`, not `unindexFailedFile`; a file that entered the
failed-file bucket is still in that bucket after exiting the Failed state, so
exit does not unregister the file from the bucket matching the exited state. -/
theorem failed_exit_unindexes_wrong_bucket :
    (fileStateUnindexOnExit FileStateTag.failed 7
        (fileStateIndexOnEnter FileStateTag.failed 7 {})).failedFiles = [7] ∧
    fileStateUnindexOnExit FileStateTag.failed 7
        (fileStateIndexOnEnter FileStateTag.failed 7 {}) =
      fileStateIndexOnEnter FileStateTag.failed 7 {} := by
  constructor
  · rfl
  · rfl

/-- C4 (code bug): destroying a File that is in the Failed state runs
`Failed.exit`, which unregisters the working-file bucket instead of the
failed-file bucket, so the destroyed node is still present in a Forest bucket
afterwards; repeating the destroy is a no-op on the resulting state. -/
theorem destroy_failed_file_left_in_bucket :
    ((fileDestroy FileStateTag.failed 7
        (fileStateIndexOnEnter FileStateTag.failed 7 {}) [7]).1).failedFiles = [7] ∧
    fileDestroy FileStateTag.failed 7
        (fileDestroy FileStateTag.failed 7
          (fileStateIndexOnEnter FileStateTag.failed 7 {}) [7]).1
        (fileDestroy FileStateTag.failed 7
          (fileStateIndexOnEnter FileStateTag.failed 7 {}) [7]).2 =
      fileDestroy FileStateTag.failed 7
        (fileStateIndexOnEnter FileStateTag.failed 7 {}) [7] := by
  constructor
  · rfl
  · rfl

/-- A concrete Directory parked in Conflict whose same-policy slot already
holds the value "keep". -/
def conflictedDir : DirNode :=
  { srcUUID := 1
    policy := (some "keep", none)
    state := DirState.conflictD { message := "dir exists", code := some "EEXIST" }
      (some "keep", none) }

/-- C3 counterexample: calling `setPolicy("same", "keep")` on a Directory in
Conflict whose same-slot already holds "keep" is not a no-op — the Directory
still transitions to Making, because `setPolicy` performs no comparison with
the previous slot value before calling `retry()`. -/
theorem setPolicy_identical_value_not_noop :
    dirSetPolicy conflictedDir "same" "keep" ≠ conflictedDir ∧
    (dirSetPolicy conflictedDir "same" "keep").state = DirState.makingD := by
  constructor
  · decide
  · rfl

/-- C3 (amended): `setPolicy(kind, p)` on a Directory in Conflict transitions
it to Making exactly once regardless of whether `p` differs from the current
slot value: the slot is overwritten and `retry()` unconditionally re-enters
Making. -/
theorem setPolicy_on_conflict_always_making (d : DirNode) (kind : String)
    (p : String) (e : JsError) (pol : Option String × Option String)
    (h : d.state = DirState.conflictD e pol) :
    (dirSetPolicy d kind p).state = DirState.makingD := by
  unfold dirSetPolicy dirRetry
  split <;> simp [h, dirStateRetry]

/-- Witness for the amended C3: a concrete conflicted Directory, a policy
value equal to the current slot value, and the resulting Making state. -/
theorem setPolicy_on_conflict_always_making_witness :
    (dirSetPolicy conflictedDir "same" "keep").state = DirState.makingD :=
  setPolicy_on_conflict_always_making conflictedDir "same" "keep"
    { message := "dir exists", code := some "EEXIST" } (some "keep", none) rfl

/-- Unfolding lemma: a dir notification runs `reqSchedDirRead`. -/
lemma notifyOne_dirNotif (t : TickQueue) :
    notifyOne t Notif.dirNotif = reqSchedDirRead t := rfl

/-- Unfolding lemma: a file notification runs `reqSchedFileHash`. -/
lemma notifyOne_fileNotif (t : TickQueue) :
    notifyOne t Notif.fileNotif = reqSchedFileHash t := rfl

/-- With the flag clear, the request sets the flag and enqueues one pass. -/
lemma reqSchedDirRead_of_false (t : TickQueue) (h : t.dirReadScheduled = false) :
    reqSchedDirRead t =
      { t with dirReadScheduled := true, dirPassQueue := t.dirPassQueue + 1 } := by
  unfold reqSchedDirRead
  simp [h]

/-- With the flag set, the request is a no-op. -/
lemma reqSchedDirRead_of_true (t : TickQueue) (h : t.dirReadScheduled = true) :
    reqSchedDirRead t = t := by
  unfold reqSchedDirRead
  simp [h]

/-- With the flag clear, the hash request sets the flag and enqueues one pass. -/
lemma reqSchedFileHash_of_false (t : TickQueue) (h : t.fileHashScheduled = false) :
    reqSchedFileHash t =
      { t with fileHashScheduled := true, hashPassQueue := t.hashPassQueue + 1 } := by
  unfold reqSchedFileHash
  simp [h]

/-- With the flag set, the hash request is a no-op. -/
lemma reqSchedFileHash_of_true (t : TickQueue) (h : t.fileHashScheduled = true) :
    reqSchedFileHash t = t := by
  unfold reqSchedFileHash
  simp [h]

/-- The hash request never touches the dir-side fields. -/
lemma reqSchedFileHash_dir_fields (t : TickQueue) :
    (reqSchedFileHash t).dirPassQueue = t.dirPassQueue ∧
    (reqSchedFileHash t).dirReadScheduled = t.dirReadScheduled := by
  unfold reqSchedFileHash
  split <;> exact ⟨rfl, rfl⟩

/-- The dir request never touches the hash-side fields. -/
lemma reqSchedDirRead_hash_fields (t : TickQueue) :
    (reqSchedDirRead t).hashPassQueue = t.hashPassQueue ∧
    (reqSchedDirRead t).fileHashScheduled = t.fileHashScheduled := by
  unfold reqSchedDirRead
  split <;> exact ⟨rfl, rfl⟩

/-- Once the dir-read flag is set, further notifications within the turn
enqueue no further dir pass. -/
lemma notifyBurst_dir_stable (ns : List Notif) (t : TickQueue)
    (h : t.dirReadScheduled = true) :
    (notifyBurst t ns).dirPassQueue = t.dirPassQueue ∧
    (notifyBurst t ns).dirReadScheduled = true := by
  induction ns generalizing t with
  | nil => exact ⟨rfl, h⟩
  | cons n rest ih =>
    have hb : notifyBurst t (n :: rest) = notifyBurst (notifyOne t n) rest := rfl
    cases n with
    | dirNotif =>
      rw [hb, notifyOne_dirNotif, reqSchedDirRead_of_true t h]
      exact ih t h
    | fileNotif =>
      rw [hb, notifyOne_fileNotif]
      have hflag : (reqSchedFileHash t).dirReadScheduled = true := by
        rw [(reqSchedFileHash_dir_fields t).2]
        exact h
      obtain ⟨q, f⟩ := ih (reqSchedFileHash t) hflag
      exact ⟨by rw [q, (reqSchedFileHash_dir_fields t).1], f⟩

/-- Once the hash flag is set, further notifications enqueue no further hash
pass. -/
lemma notifyBurst_hash_stable (ns : List Notif) (t : TickQueue)
    (h : t.fileHashScheduled = true) :
    (notifyBurst t ns).hashPassQueue = t.hashPassQueue ∧
    (notifyBurst t ns).fileHashScheduled = true := by
  induction ns generalizing t with
  | nil => exact ⟨rfl, h⟩
  | cons n rest ih =>
    have hb : notifyBurst t (n :: rest) = notifyBurst (notifyOne t n) rest := rfl
    cases n with
    | fileNotif =>
      rw [hb, notifyOne_fileNotif, reqSchedFileHash_of_true t h]
      exact ih t h
    | dirNotif =>
      rw [hb, notifyOne_dirNotif]
      have hflag : (reqSchedDirRead t).fileHashScheduled = true := by
        rw [(reqSchedDirRead_hash_fields t).2]
        exact h
      obtain ⟨q, f⟩ := ih (reqSchedDirRead t) hflag
      exact ⟨by rw [q, (reqSchedDirRead_hash_fields t).1], f⟩

/-- The dir-read half of the debounce law, for a turn starting unscheduled. -/
lemma notifyBurst_dir_count (ns : List Notif) (t : TickQueue)
    (h : t.dirReadScheduled = false) :
    (Notif.dirNotif ∈ ns →
      (notifyBurst t ns).dirPassQueue = t.dirPassQueue + 1) ∧
    (Notif.dirNotif ∉ ns →
      (notifyBurst t ns).dirPassQueue = t.dirPassQueue) := by
  induction ns generalizing t with
  | nil => exact ⟨fun hmem => absurd hmem (List.not_mem_nil _), fun _ => rfl⟩
  | cons n rest ih =>
    have hb : notifyBurst t (n :: rest) = notifyBurst (notifyOne t n) rest := rfl
    cases n with
    | dirNotif =>
      constructor
      · intro _
        rw [hb, notifyOne_dirNotif, reqSchedDirRead_of_false t h]
        exact (notifyBurst_dir_stable rest _ rfl).1
      · intro hmem
        exact absurd (List.mem_cons_self _ _) hmem
    | fileNotif =>
      have hflag : (reqSchedFileHash t).dirReadScheduled = false := by
        rw [(reqSchedFileHash_dir_fields t).2]
        exact h
      obtain ⟨hin, hout⟩ := ih (reqSchedFileHash t) hflag
      constructor
      · intro hmem
        have hr : Notif.dirNotif ∈ rest := by
          cases List.mem_cons.mp hmem with
          | inl hc => exact absurd hc (by simp)
          | inr hrr => exact hrr
        rw [hb, notifyOne_fileNotif, hin hr, (reqSchedFileHash_dir_fields t).1]
      · intro hmem
        have hr : Notif.dirNotif ∉ rest := fun hrr => hmem (List.mem_cons_of_mem _ hrr)
        rw [hb, notifyOne_fileNotif, hout hr, (reqSchedFileHash_dir_fields t).1]

/-- The hash half of the debounce law. -/
lemma notifyBurst_hash_count (ns : List Notif) (t : TickQueue)
    (h : t.fileHashScheduled = false) :
    (Notif.fileNotif ∈ ns →
      (notifyBurst t ns).hashPassQueue = t.hashPassQueue + 1) ∧
    (Notif.fileNotif ∉ ns →
      (notifyBurst t ns).hashPassQueue = t.hashPassQueue) := by
  induction ns generalizing t with
  | nil => exact ⟨fun hmem => absurd hmem (List.not_mem_nil _), fun _ => rfl⟩
  | cons n rest ih =>
    have hb : notifyBurst t (n :: rest) = notifyBurst (notifyOne t n) rest := rfl
    cases n with
    | fileNotif =>
      constructor
      · intro _
        rw [hb, notifyOne_fileNotif, reqSchedFileHash_of_false t h]
        exact (notifyBurst_hash_stable rest _ rfl).1
      · intro hmem
        exact absurd (List.mem_cons_self _ _) hmem
    | dirNotif =>
      have hflag : (reqSchedDirRead t).fileHashScheduled = false := by
        rw [(reqSchedDirRead_hash_fields t).2]
        exact h
      obtain ⟨hin, hout⟩ := ih (reqSchedDirRead t) hflag
      constructor
      · intro hmem
        have hr : Notif.fileNotif ∈ rest := by
          cases List.mem_cons.mp hmem with
          | inl hc => exact absurd hc (by simp)
          | inr hrr => exact hrr
        rw [hb, notifyOne_dirNotif, hin hr, (reqSchedDirRead_hash_fields t).1]
      · intro hmem
        have hr : Notif.fileNotif ∉ rest := fun hrr => hmem (List.mem_cons_of_mem _ hrr)
        rw [hb, notifyOne_dirNotif, hout hr, (reqSchedDirRead_hash_fields t).1]

/-- C6: For each Forest scheduler, any number of bucket-membership change
notifications within one execution turn (a turn starting with the one-shot
flag clear) enqueue exactly one scheduling pass before the next turn when at
least one notification for that scheduler occurred — never zero and never more
than one — and enqueue none when no notification for that scheduler occurred. -/
theorem debounce_exactly_one_pass (t : TickQueue) (ns : List Notif)
    (hd : t.dirReadScheduled = false) (hf : t.fileHashScheduled = false) :
    (Notif.dirNotif ∈ ns →
      (notifyBurst t ns).dirPassQueue = t.dirPassQueue + 1) ∧
    (Notif.dirNotif ∉ ns →
      (notifyBurst t ns).dirPassQueue = t.dirPassQueue) ∧
    (Notif.fileNotif ∈ ns →
      (notifyBurst t ns).hashPassQueue = t.hashPassQueue + 1) ∧
    (Notif.fileNotif ∉ ns →
      (notifyBurst t ns).hashPassQueue = t.hashPassQueue) := by
  obtain ⟨d1, d2⟩ := notifyBurst_dir_count ns t hd
  obtain ⟨h1, h2⟩ := notifyBurst_hash_count ns t hf
  exact ⟨d1, d2, h1, h2⟩

/-- Witness for C6: a burst of three dir notifications and one file
notification in one turn enqueues exactly one dir pass. -/
theorem debounce_exactly_one_pass_witness :
    (notifyBurst {}
        [Notif.dirNotif, Notif.dirNotif, Notif.fileNotif, Notif.dirNotif]).dirPassQueue
      = 1 :=
  (debounce_exactly_one_pass {}
      [Notif.dirNotif, Notif.dirNotif, Notif.fileNotif, Notif.dirNotif]
      rfl rfl).1 (by decide)

/-- Setting a key makes it the lookup result. -/
lemma mapLookup_mapSet_self (m : List (Nat × VDir)) (k : Nat) (v : VDir) :
    mapLookup (mapSet m k v) k = some v := by
  unfold mapLookup mapSet
  simp [List.find?]

/-- C7: For a previously unseen drive id `d`, `createRoot(d)` (with both
filesystem collaborators succeeding) creates the on-disk root, stamps it with
identifier `d` via `forceXstat`, registers the resulting root Directory in
both the per-drive roots map and the global uuid map, and yields a Directory
whose state is already past the creation (Pending/Making) phase. -/
theorem createRoot_registers_root (f : CRForest) (d : Nat)
    (_hfresh : mapLookup f.roots d = none) :
    ∃ f2 root, createRoot f d none none = Except.ok (f2, root) ∧
      mapLookup f2.roots d = some root ∧
      mapLookup f2.uuidMap d = some root ∧
      root.uuid = d ∧
      root.phase = VPhase.pastCreation := by
  refine ⟨_, _, rfl, ?_, ?_, rfl, rfl⟩
  · exact mapLookup_mapSet_self _ _ _
  · exact mapLookup_mapSet_self _ _ _

/-- Witness for C7: createRoot on drive id 5 over an empty Forest. -/
theorem createRoot_registers_root_witness :
    ∃ f2 root, createRoot {} 5 none none = Except.ok (f2, root) ∧
      mapLookup f2.roots 5 = some root ∧
      mapLookup f2.uuidMap 5 = some root ∧
      root.uuid = 5 ∧
      root.phase = VPhase.pastCreation :=
  createRoot_registers_root {} 5 rfl

/-- Adding to a JS Set grows it by at most one element. -/
lemma setAdd_length_le (s : List Nat) (x : Nat) :
    (setAdd s x).length ≤ s.length + 1 := by
  unfold setAdd
  split
  · omega
  · simp

/-- Deleting from a JS Set never grows it. -/
lemma setDel_length_le (s : List Nat) (x : Nat) :
    (setDel s x).length ≤ s.length :=
  List.length_filter_le _ _

/-- The dir-read scheduling loop keeps the reading bucket at or below the
ceiling of 6: each iteration requires strictly fewer than 6 readers before
issuing one more read. -/
lemma scheduleDirReadLoop_reading_le (fuel : Nat) (f : Forest)
    (h : f.readingDirs.length ≤ 6) :
    (scheduleDirReadLoop fuel f).readingDirs.length ≤ 6 := by
  induction fuel generalizing f with
  | zero => exact h
  | succ fuel ih =>
    unfold scheduleDirReadLoop
    cases hi : f.initDirs with
    | nil => exact h
    | cons u rest =>
      by_cases hr : f.readingDirs.length < 6
      · simp only [hr, if_pos]
        apply ih
        have := setAdd_length_le f.readingDirs u
        show (dirRead f u).readingDirs.length ≤ 6
        unfold dirRead
        simp only
        omega
      · simp only [hr, if_neg, if_false]
        exact h

/-- The dir-read scheduling loop never touches the hashing bucket. -/
lemma scheduleDirReadLoop_hashing_eq (fuel : Nat) (f : Forest) :
    (scheduleDirReadLoop fuel f).hashingFiles = f.hashingFiles := by
  induction fuel generalizing f with
  | zero => rfl
  | succ fuel ih =>
    unfold scheduleDirReadLoop
    cases f.initDirs with
    | nil => rfl
    | cons u rest =>
      by_cases hr : f.readingDirs.length < 6
      · simp only [hr, if_pos]
        rw [ih (dirRead f u)]
        rfl
      · simp only [hr, if_neg, if_false]

/-- The hash scheduling loop keeps the hashing bucket at or below the ceiling
of 2. -/
lemma scheduleFileHashLoop_hashing_le (fuel : Nat) (f : Forest)
    (h : f.hashingFiles.length ≤ 2) :
    (scheduleFileHashLoop fuel f).hashingFiles.length ≤ 2 := by
  induction fuel generalizing f with
  | zero => exact h
  | succ fuel ih =>
    unfold scheduleFileHashLoop
    cases hi : f.hashlessFiles with
    | nil => exact h
    | cons u rest =>
      by_cases hr : f.hashingFiles.length < 2
      · simp only [hr, if_pos]
        apply ih
        have := setAdd_length_le f.hashingFiles u
        show (calcFingerprint f u).hashingFiles.length ≤ 2
        unfold calcFingerprint
        simp only
        omega
      · simp only [hr, if_neg, if_false]
        exact h

/-- The hash scheduling loop never touches the reading bucket. -/
lemma scheduleFileHashLoop_reading_eq (fuel : Nat) (f : Forest) :
    (scheduleFileHashLoop fuel f).readingDirs = f.readingDirs := by
  induction fuel generalizing f with
  | zero => rfl
  | succ fuel ih =>
    unfold scheduleFileHashLoop
    cases f.hashlessFiles with
    | nil => rfl
    | cons u rest =>
      by_cases hr : f.hashingFiles.length < 2
      · simp only [hr, if_pos]
        rw [ih (calcFingerprint f u)]
        rfl
      · simp only [hr, if_neg, if_false]

/-- C5: In every reachable Forest state, the reading-directories bucket holds
at most 6 directories and the hashing-files bucket holds at most 2 files,
regardless of how many directories or files become eligible in a burst:
directories enter the reading bucket only through `scheduleDirRead` and files
enter the hashing bucket only through `scheduleFileHash`, and each loop checks
its ceiling before issuing one more operation. -/
theorem forest_scheduler_ceilings (f : Forest) (h : ForestReachable f) :
    f.readingDirs.length ≤ 6 ∧ f.hashingFiles.length ≤ 2 := by
  induction h with
  | start => exact ⟨by simp [emptyForest], by simp [emptyForest]⟩
  | step _ hs ih =>
    obtain ⟨ihr, ihb⟩ := ih
    cases hs with
    | dirEnterInit u => exact ⟨ihr, ihb⟩
    | dirExitInit u => exact ⟨ihr, ihb⟩
    | dirEnterPending u => exact ⟨ihr, ihb⟩
    | dirExitPending u => exact ⟨ihr, ihb⟩
    | dirExitReading u =>
      exact ⟨le_trans (setDel_length_le _ _) ihr, ihb⟩
    | schedDirPass =>
      refine ⟨scheduleDirReadLoop_reading_le _ _ ihr, ?_⟩
      unfold scheduleDirRead
      rw [scheduleDirReadLoop_hashing_eq]
      exact ihb
    | fileEnterHashless u => exact ⟨ihr, ihb⟩
    | fileExitHashless u => exact ⟨ihr, ihb⟩
    | fileExitHashing u =>
      exact ⟨ihr, le_trans (setDel_length_le _ _) ihb⟩
    | fileEnterHashFailed u => exact ⟨ihr, ihb⟩
    | fileExitHashFailed u => exact ⟨ihr, ihb⟩
    | schedHashPass =>
      refine ⟨?_, scheduleFileHashLoop_hashing_le _ _ ihb⟩
      unfold scheduleFileHash
      rw [scheduleFileHashLoop_reading_eq]
      exact ihr

/-- Witness for C5: a Forest that received a burst of seven eligible
directories and then ran a scheduling pass still respects both ceilings. -/
theorem forest_scheduler_ceilings_witness :
    (scheduleDirRead
        { emptyForest with
          initDirs := [1, 2, 3, 4, 5, 6, 7] }).readingDirs.length ≤ 6 ∧
    (scheduleDirRead
        { emptyForest with
          initDirs := [1, 2, 3, 4, 5, 6, 7] }).hashingFiles.length ≤ 2 :=
  forest_scheduler_ceilings _
    (ForestReachable.step
      (ForestReachable.step
        (ForestReachable.step
          (ForestReachable.step
            (ForestReachable.step
              (ForestReachable.step
                (ForestReachable.step
                  (ForestReachable.step ForestReachable.start
                    (FStep.dirEnterInit emptyForest 1))
                  (FStep.dirEnterInit _ 2))
                (FStep.dirEnterInit _ 3))
              (FStep.dirEnterInit _ 4))
            (FStep.dirEnterInit _ 5))
          (FStep.dirEnterInit _ 6))
        (FStep.dirEnterInit _ 7))
      (FStep.schedDirPass _))

/- ------------------------------------------------------------------
   Lemmas about the Read-state drain.
   ------------------------------------------------------------------ -/

/-- Unfolding lemma for the active-children count. -/
lemma countActive_cons (c : Child) (rest : List Child) :
    countActive (c :: rest) =
      (if c.status = ChildStatus.activeC then 1 else 0) + countActive rest := rfl

/-- Unfolding lemma for the errored-children count. -/
lemma countErrored_cons (c : Child) (rest : List Child) :
    countErrored (c :: rest) =
      (if c.status = ChildStatus.erroredC then 1 else 0) + countErrored rest := rfl

/-- Splitting a count of active children over an append. -/
lemma countActive_append (l1 l2 : List Child) :
    countActive (l1 ++ l2) = countActive l1 + countActive l2 := by
  induction l1 with
  | nil => simp [countActive]
  | cons c rest ih =>
    rw [List.cons_append, countActive_cons, countActive_cons, ih]
    omega

/-- Splitting a count of errored children over an append. -/
lemma countErrored_append (l1 l2 : List Child) :
    countErrored (l1 ++ l2) = countErrored l1 + countErrored l2 := by
  induction l1 with
  | nil => simp [countErrored]
  | cons c rest ih =>
    rw [List.cons_append, countErrored_cons, countErrored_cons, ih]
    omega

/-- An active child is removed by `dropActive`. -/
lemma dropActive_cons_active (c : Child) (rest : List Child)
    (hs : c.status = ChildStatus.activeC) :
    dropActive (c :: rest) = dropActive rest := by
  unfold dropActive
  rw [List.filter_cons_of_neg]
  simp [hs]

/-- A non-active child is kept by `dropActive`. -/
lemma dropActive_cons_errored (c : Child) (rest : List Child)
    (hs : c.status = ChildStatus.erroredC) :
    dropActive (c :: rest) = c :: dropActive rest := by
  unfold dropActive
  rw [List.filter_cons_of_pos]
  simp [hs]

/-- Unfolding lemma for `markActiveErrored`. -/
lemma markActiveErrored_cons (c : Child) (rest : List Child) :
    markActiveErrored (c :: rest) =
      (if c.status = ChildStatus.activeC
        then { c with status := ChildStatus.erroredC } else c)
        :: markActiveErrored rest := by
  unfold markActiveErrored
  rw [List.map_cons]

/-- After dropping the active children, none remain active. -/
lemma countActive_dropActive (l : List Child) :
    countActive (dropActive l) = 0 := by
  induction l with
  | nil => rfl
  | cons c rest ih =>
    cases hs : c.status with
    | activeC =>
      rw [dropActive_cons_active c rest hs]
      exact ih
    | erroredC =>
      rw [dropActive_cons_errored c rest hs, countActive_cons, hs]
      simpa using ih

/-- Dropping the active children keeps every errored child. -/
lemma countErrored_dropActive (l : List Child) :
    countErrored (dropActive l) = countErrored l := by
  induction l with
  | nil => rfl
  | cons c rest ih =>
    cases hs : c.status with
    | activeC =>
      rw [dropActive_cons_active c rest hs, ih, countErrored_cons, hs]
      simp
    | erroredC =>
      rw [dropActive_cons_errored c rest hs, countErrored_cons, ih,
        countErrored_cons]

/-- After marking the active children errored, none remain active. -/
lemma countActive_markActiveErrored (l : List Child) :
    countActive (markActiveErrored l) = 0 := by
  induction l with
  | nil => rfl
  | cons c rest ih =>
    rw [markActiveErrored_cons, countActive_cons]
    cases hs : c.status <;> simpa [hs] using ih

/-- Marking the active children errored never loses an errored child. -/
lemma countErrored_markActiveErrored_ge (l : List Child) :
    countErrored l ≤ countErrored (markActiveErrored l) := by
  induction l with
  | nil => exact Nat.le_refl _
  | cons c rest ih =>
    rw [markActiveErrored_cons, countErrored_cons, countErrored_cons]
    cases hs : c.status <;> simp [hs] <;> omega

/-- Marking preserves the children count. -/
lemma length_markActiveErrored (l : List Child) :
    (markActiveErrored l).length = l.length := by
  unfold markActiveErrored
  exact List.length_map _ _

/-- A list with an errored child has a positive errored count. -/
lemma countErrored_pos_of_mem {l : List Child} {c : Child}
    (hc : c ∈ l) (he : c.status = ChildStatus.erroredC) :
    0 < countErrored l := by
  induction l with
  | nil => cases hc
  | cons d rest ih =>
    rw [countErrored_cons]
    cases List.mem_cons.mp hc with
    | inl h1 =>
      rw [← h1, he]
      simp
    | inr h2 =>
      have := ih h2
      omega

/-- A positive errored count needs a nonempty children list. -/
lemma children_ne_nil_of_countErrored_pos {l : List Child}
    (h : 0 < countErrored l) : l ≠ [] := by
  intro hnil
  subst hnil
  simp [countErrored] at h

/-- An errored child survives `dropActive`. -/
lemma mem_dropActive_of_errored {l : List Child} {c : Child}
    (hc : c ∈ l) (he : c.status = ChildStatus.erroredC) :
    c ∈ dropActive l := by
  unfold dropActive
  refine List.mem_filter.mpr ⟨hc, ?_⟩
  simp [he]

/-- An errored child survives `markActiveErrored` unchanged. -/
lemma mem_markActiveErrored_of_errored {l : List Child} {c : Child}
    (hc : c ∈ l) (he : c.status = ChildStatus.erroredC) :
    c ∈ markActiveErrored l := by
  unfold markActiveErrored
  refine List.mem_map.mpr ⟨c, hc, ?_⟩
  simp [he]

/-- Equation lemma: `next()` with a pending file entry pops it and spawns an
active File child. -/
lemma readNext_fcons (st : ReadSt) (f : Entry) (rest : List Entry)
    (h : st.fstats = f :: rest) :
    readNext st = { st with
      fstats := rest
      children := st.children ++ [⟨st.nextSeq, f.uuid, true, ChildStatus.activeC⟩]
      nextSeq := st.nextSeq + 1 } := by
  unfold readNext
  rw [h]

/-- Equation lemma: with no file entries left, `next()` pops a subdirectory
entry and spawns an active Directory child. -/
lemma readNext_dcons (st : ReadSt) (d : Entry) (rest : List Entry)
    (hf : st.fstats = []) (hd : st.dstats = d :: rest) :
    readNext st = { st with
      dstats := rest
      children := st.children ++ [⟨st.nextSeq, d.uuid, false, ChildStatus.activeC⟩]
      nextSeq := st.nextSeq + 1 } := by
  unfold readNext
  rw [hf, hd]

/-- Equation lemma: with both queues empty and no children, `next()` runs
`setState(Finished)`. -/
lemma readNext_finish (st : ReadSt) (hf : st.fstats = []) (hd : st.dstats = [])
    (hc : st.children = []) :
    readNext st = { st with finished := true } := by
  unfold readNext
  rw [hf, hd]
  simp [hc]

/-- Equation lemma: with both queues empty but children remaining, `next()`
does nothing. -/
lemma readNext_stuck (st : ReadSt) (hf : st.fstats = []) (hd : st.dstats = [])
    (hc : st.children ≠ []) :
    readNext st = st := by
  unfold readNext
  rw [hf, hd]
  simp [hc]

/-- Any member of the children list after `next()` is an old child or the
freshly spawned child carrying the next sequence number. -/
lemma readNext_children_mem (st : ReadSt) (c : Child)
    (h : c ∈ (readNext st).children) :
    c ∈ st.children ∨ c.seq = st.nextSeq := by
  cases hf : st.fstats with
  | cons f rest =>
    rw [readNext_fcons st f rest hf] at h
    cases List.mem_append.mp h with
    | inl h1 => exact Or.inl h1
    | inr h2 =>
      right
      have hce : c = ⟨st.nextSeq, f.uuid, true, ChildStatus.activeC⟩ := by
        simpa using h2
      rw [hce]
  | nil =>
    cases hd : st.dstats with
    | cons d rest =>
      rw [readNext_dcons st d rest hf hd] at h
      cases List.mem_append.mp h with
      | inl h1 => exact Or.inl h1
      | inr h2 =>
        right
        have hce : c = ⟨st.nextSeq, d.uuid, false, ChildStatus.activeC⟩ := by
          simpa using h2
        rw [hce]
    | nil =>
      by_cases hc : st.children = []
      · rw [readNext_finish st hf hd hc] at h
        exact Or.inl h
      · rw [readNext_stuck st hf hd hc] at h
        exact Or.inl h

/-- `next()` never removes a child. -/
lemma readNext_children_supset (st : ReadSt) (c : Child)
    (h : c ∈ st.children) : c ∈ (readNext st).children := by
  cases hf : st.fstats with
  | cons f rest =>
    rw [readNext_fcons st f rest hf]
    exact List.mem_append.mpr (Or.inl h)
  | nil =>
    cases hd : st.dstats with
    | cons d rest =>
      rw [readNext_dcons st d rest hf hd]
      exact List.mem_append.mpr (Or.inl h)
    | nil =>
      by_cases hc : st.children = []
      · rw [readNext_finish st hf hd hc]
        exact h
      · rw [readNext_stuck st hf hd hc]
        exact h

/-- `next()` never shrinks the children list. -/
lemma readNext_children_length (st : ReadSt) :
    st.children.length ≤ (readNext st).children.length := by
  cases hf : st.fstats with
  | cons f rest =>
    rw [readNext_fcons st f rest hf]
    simp
  | nil =>
    cases hd : st.dstats with
    | cons d rest =>
      rw [readNext_dcons st d rest hf hd]
      simp
    | nil =>
      by_cases hc : st.children = []
      · rw [readNext_finish st hf hd hc]
      · rw [readNext_stuck st hf hd hc]

/-- `next()` neither creates nor destroys errored children. -/
lemma erroredCount_readNext (st : ReadSt) :
    erroredCount (readNext st) = erroredCount st := by
  cases hf : st.fstats with
  | cons f rest =>
    rw [readNext_fcons st f rest hf]
    unfold erroredCount
    rw [countErrored_append]
    simp [countErrored]
  | nil =>
    cases hd : st.dstats with
    | cons d rest =>
      rw [readNext_dcons st d rest hf hd]
      unfold erroredCount
      rw [countErrored_append]
      simp [countErrored]
    | nil =>
      by_cases hc : st.children = []
      · rw [readNext_finish st hf hd hc]
        rfl
      · rw [readNext_stuck st hf hd hc]

/-- Equation lemma: a finish notification with a running child destroys it and
runs `next()`. -/
lemma onChildNotification_finish (st : ReadSt)
    (h : st.children.any (fun c => c.status = ChildStatus.activeC) = true) :
    onChildNotification st Outcome.finishO =
      readNext { st with children := dropActive st.children } := by
  unfold onChildNotification
  rw [h]
  simp

/-- Equation lemma: an error notification with a running child leaves it in
the children list (now in its own terminal error state) and runs `next()`. -/
lemma onChildNotification_error (st : ReadSt)
    (h : st.children.any (fun c => c.status = ChildStatus.activeC) = true) :
    onChildNotification st Outcome.errorO =
      readNext { st with children := markActiveErrored st.children } := by
  unfold onChildNotification
  rw [h]
  simp

/-- Equation lemma: with no running child there is nothing to notify. -/
lemma onChildNotification_noActive (st : ReadSt) (o : Outcome)
    (h : st.children.any (fun c => c.status = ChildStatus.activeC) = false) :
    onChildNotification st o = st := by
  unfold onChildNotification
  rw [h]
  simp

/-- The drain invariant of the Read state: at most one running child, the
subdirectory queue untouched while file entries remain (`d0` is the partition
of the original listing), Finished exactly on empty queues and empty children,
and every spawned child numbered below the next sequence number. -/
def readDrainInv (d0 : List Entry) (st : ReadSt) : Prop :=
  countActive st.children ≤ 1 ∧
  (st.fstats ≠ [] → st.dstats = d0) ∧
  (st.finished = true ↔ st.fstats = [] ∧ st.dstats = [] ∧ st.children = []) ∧
  (∀ c ∈ st.children, c.seq < st.nextSeq)

/-- `next()` establishes the drain invariant from any quiescent (no running
child, not yet finished) state satisfying the queue discipline. -/
lemma readNext_inv (d0 : List Entry) (st : ReadSt)
    (ha : countActive st.children = 0)
    (hfin : st.finished = false)
    (hd : st.fstats ≠ [] → st.dstats = d0)
    (hs : ∀ c ∈ st.children, c.seq < st.nextSeq) :
    readDrainInv d0 (readNext st) := by
  cases hf : st.fstats with
  | cons f rest =>
    rw [readNext_fcons st f rest hf]
    refine ⟨?_, ?_, ?_, ?_⟩
    · show countActive (st.children ++ [⟨st.nextSeq, f.uuid, true, ChildStatus.activeC⟩]) ≤ 1
      rw [countActive_append, ha]
      simp [countActive]
    · intro _
      exact hd (by rw [hf]; exact List.cons_ne_nil f rest)
    · simp [hfin]
    · intro c hcmem
      rcases List.mem_append.mp hcmem with h1 | h2
      · exact Nat.lt_trans (hs c h1) (Nat.lt_succ_self _)
      · have hce : c = ⟨st.nextSeq, f.uuid, true, ChildStatus.activeC⟩ := by
          simpa using h2
        rw [hce]
        exact Nat.lt_succ_self _
  | nil =>
    cases hdst : st.dstats with
    | cons d rest =>
      rw [readNext_dcons st d rest hf hdst]
      refine ⟨?_, ?_, ?_, ?_⟩
      · show countActive (st.children ++ [⟨st.nextSeq, d.uuid, false, ChildStatus.activeC⟩]) ≤ 1
        rw [countActive_append, ha]
        simp [countActive]
      · intro h2
        exact absurd hf h2
      · simp [hfin]
      · intro c hcmem
        rcases List.mem_append.mp hcmem with h1 | h2
        · exact Nat.lt_trans (hs c h1) (Nat.lt_succ_self _)
        · have hce : c = ⟨st.nextSeq, d.uuid, false, ChildStatus.activeC⟩ := by
            simpa using h2
          rw [hce]
          exact Nat.lt_succ_self _
    | nil =>
      by_cases hc : st.children = []
      · rw [readNext_finish st hf hdst hc]
        refine ⟨?_, ?_, ?_, ?_⟩
        · show countActive st.children ≤ 1
          omega
        · intro h2
          exact absurd hf h2
        · simp [hf, hdst, hc]
        · intro c hcmem
          exact hs c hcmem
      · rw [readNext_stuck st hf hdst hc]
        refine ⟨by omega, fun h2 => absurd hf h2, by simp [hfin, hc], hs⟩

/-- A child notification preserves the drain invariant. -/
lemma onChildNotification_inv (d0 : List Entry) (st : ReadSt) (o : Outcome)
    (h : readDrainInv d0 st) : readDrainInv d0 (onChildNotification st o) := by
  obtain ⟨ha, hd, hiff, hs⟩ := h
  by_cases hact : st.children.any (fun c => c.status = ChildStatus.activeC) = true
  · have hne : st.children ≠ [] := by
      obtain ⟨c, hc, _⟩ := List.any_eq_true.mp hact
      intro hnil
      rw [hnil] at hc
      cases hc
    have hfin : st.finished = false := by
      cases hfb : st.finished
      · rfl
      · exact absurd (hiff.mp hfb).2.2 hne
    cases o with
    | finishO =>
      rw [onChildNotification_finish st hact]
      apply readNext_inv
      · exact countActive_dropActive st.children
      · exact hfin
      · exact hd
      · intro c hcm
        exact hs c (List.mem_filter.mp hcm).1
    | errorO =>
      rw [onChildNotification_error st hact]
      apply readNext_inv
      · exact countActive_markActiveErrored st.children
      · exact hfin
      · exact hd
      · intro c hcm
        obtain ⟨c0, hc0, hfc⟩ := List.mem_map.mp hcm
        have hseq : c.seq = c0.seq := by
          rw [← hfc]
          by_cases hcs : c0.status = ChildStatus.activeC <;> simp [hcs]
        rw [hseq]
        exact hs c0 hc0
  · have hfalse : st.children.any (fun c => c.status = ChildStatus.activeC) = false := by
      revert hact
      cases st.children.any (fun c => c.status = ChildStatus.activeC) <;> simp
    rw [onChildNotification_noActive st o hfalse]
    exact ⟨ha, hd, hiff, hs⟩

/-- Every state reachable in the Read drain satisfies the invariant. -/
lemma rread_inv (xstats : List Entry) (st : ReadSt) (h : RRead xstats st) :
    readDrainInv (xstats.filter (fun x => x.type = "directory")) st := by
  induction h with
  | enter =>
    apply readNext_inv
    · rfl
    · rfl
    · intro _
      rfl
    · intro c hc
      cases hc
  | step o _ ih => exact onChildNotification_inv _ _ o ih

/-- A child notification never loses an errored child from the count. -/
lemma erroredCount_step_mono (st : ReadSt) (o : Outcome) :
    erroredCount st ≤ erroredCount (onChildNotification st o) := by
  by_cases hact : st.children.any (fun c => c.status = ChildStatus.activeC) = true
  · cases o with
    | finishO =>
      rw [onChildNotification_finish st hact, erroredCount_readNext]
      show erroredCount st ≤ countErrored (dropActive st.children)
      rw [countErrored_dropActive]
      exact Nat.le_refl _
    | errorO =>
      rw [onChildNotification_error st hact, erroredCount_readNext]
      show erroredCount st ≤ countErrored (markActiveErrored st.children)
      exact countErrored_markActiveErrored_ge _
  · have hfalse : st.children.any (fun c => c.status = ChildStatus.activeC) = false := by
      revert hact
      cases st.children.any (fun c => c.status = ChildStatus.activeC) <;> simp
    rw [onChildNotification_noActive st o hfalse]

/-- An errored child stays in the children list across any notification. -/
lemma errored_mem_step (st : ReadSt) (o : Outcome) (c : Child)
    (hc : c ∈ st.children) (he : c.status = ChildStatus.erroredC) :
    c ∈ (onChildNotification st o).children := by
  by_cases hact : st.children.any (fun c => c.status = ChildStatus.activeC) = true
  · cases o with
    | finishO =>
      rw [onChildNotification_finish st hact]
      exact readNext_children_supset _ c (mem_dropActive_of_errored hc he)
    | errorO =>
      rw [onChildNotification_error st hact]
      exact readNext_children_supset _ c (mem_markActiveErrored_of_errored hc he)
  · have hfalse : st.children.any (fun c => c.status = ChildStatus.activeC) = false := by
      revert hact
      cases st.children.any (fun c => c.status = ChildStatus.activeC) <;> simp
    rw [onChildNotification_noActive st o hfalse]
    exact hc

/-- Reachability is closed under running further notifications. -/
lemma rread_runRead (xstats : List Entry) (st : ReadSt) (os : List Outcome)
    (h : RRead xstats st) : RRead xstats (runRead st os) := by
  induction os generalizing st with
  | nil => exact h
  | cons o rest ih => exact ih (onChildNotification st o) (RRead.step o h)

/-- The errored count never decreases over a run. -/
lemma erroredCount_le_runRead (st : ReadSt) (os : List Outcome) :
    erroredCount st ≤ erroredCount (runRead st os) := by
  induction os generalizing st with
  | nil => exact Nat.le_refl _
  | cons o rest ih =>
    exact Nat.le_trans (erroredCount_step_mono st o) (ih (onChildNotification st o))

/-- An errored child stays in the children list over a run. -/
lemma errored_mem_runRead (st : ReadSt) (os : List Outcome) (c : Child)
    (hc : c ∈ st.children) (he : c.status = ChildStatus.erroredC) :
    c ∈ (runRead st os).children := by
  induction os generalizing st with
  | nil => exact hc
  | cons o rest ih => exact ih (onChildNotification st o) (errored_mem_step st o c hc he)

/-- C2 counterexample: the claim states that a child is destroyed on either
terminal notification.  A source directory with one file whose File child
reports an error refutes this: after the error notification the child is still
in the children list (in its own terminal error state) and the Directory has
not finished even though both queues are empty. -/
theorem read_error_child_not_destroyed :
    (onChildNotification (readEnter [⟨10, "a", "file"⟩]) Outcome.errorO).children =
      [⟨0, 10, true, ChildStatus.erroredC⟩] ∧
    (onChildNotification (readEnter [⟨10, "a", "file"⟩]) Outcome.errorO).fstats = [] ∧
    (onChildNotification (readEnter [⟨10, "a", "file"⟩]) Outcome.errorO).dstats = [] ∧
    (onChildNotification (readEnter [⟨10, "a", "file"⟩]) Outcome.errorO).finished = false := by
  refine ⟨?_, ?_, ?_, ?_⟩ <;> rfl

/-- C2 (amended): in the Read state the two queues are drained one entry at a
time — at most one child is running at any instant, and no subdirectory entry
is popped while file entries remain; on a child's finish notification the
child is destroyed (removed from the children list) and the next entry is
popped, while on an error notification the child is retained and the next
entry is popped; and the Directory transitions to Finished exactly when both
queues are empty and the children list is empty. -/
theorem read_drain_contract (xstats : List Entry) (st : ReadSt)
    (h : RRead xstats st) :
    countActive st.children ≤ 1 ∧
    (st.fstats ≠ [] →
      st.dstats = xstats.filter (fun x => x.type = "directory")) ∧
    (st.finished = true ↔ st.fstats = [] ∧ st.dstats = [] ∧ st.children = []) ∧
    (∀ c ∈ st.children, c.status = ChildStatus.activeC →
      c ∉ (onChildNotification st Outcome.finishO).children) ∧
    st.children.length ≤ (onChildNotification st Outcome.errorO).children.length := by
  obtain ⟨ha, hd, hiff, hs⟩ := rread_inv xstats st h
  refine ⟨ha, hd, hiff, ?_, ?_⟩
  · intro c hc hcact hmem
    have hact : st.children.any (fun c => c.status = ChildStatus.activeC) = true :=
      List.any_eq_true.mpr ⟨c, hc, by simp [hcact]⟩
    rw [onChildNotification_finish st hact] at hmem
    rcases readNext_children_mem _ c hmem with h1 | h2
    · have hkept := (List.mem_filter.mp h1).2
      simp [hcact] at hkept
    · have h2b : c.seq = st.nextSeq := h2
      have := hs c hc
      omega
  · by_cases hact : st.children.any (fun c => c.status = ChildStatus.activeC) = true
    · rw [onChildNotification_error st hact]
      have h1 : st.children.length = (markActiveErrored st.children).length :=
        (length_markActiveErrored _).symm
      have h2 := readNext_children_length { st with children := markActiveErrored st.children }
      exact le_trans (le_of_eq h1) h2
    · have hfalse : st.children.any (fun c => c.status = ChildStatus.activeC) = false := by
        revert hact
        cases st.children.any (fun c => c.status = ChildStatus.activeC) <;> simp
      rw [onChildNotification_noActive st _ hfalse]

/-- Witness for the amended C2: the drain of a two-file, one-subdirectory
listing starts with exactly one running child and an untouched subdirectory
queue. -/
theorem read_drain_contract_witness :
    countActive
      (readEnter [⟨10, "a", "file"⟩, ⟨12, "c", "file"⟩,
        ⟨11, "b", "directory"⟩]).children ≤ 1 ∧
    (readEnter [⟨10, "a", "file"⟩, ⟨12, "c", "file"⟩,
        ⟨11, "b", "directory"⟩]).dstats = [⟨11, "b", "directory"⟩] :=
  ⟨(read_drain_contract
      [⟨10, "a", "file"⟩, ⟨12, "c", "file"⟩, ⟨11, "b", "directory"⟩] _
      RRead.enter).1,
    (read_drain_contract
      [⟨10, "a", "file"⟩, ⟨12, "c", "file"⟩, ⟨11, "b", "directory"⟩] _
      RRead.enter).2.1 (by decide)⟩

/-- C10: once a spawned child reports an error it is never destroyed and never
leaves the children list, so the Directory never reaches Finished — not now
and not after any further sequence of notifications, even with both entry
queues fully drained. -/
theorem errored_child_blocks_finished (xstats : List Entry) (st : ReadSt)
    (h : RRead xstats st) (he : 0 < erroredCount st) :
    st.finished = false ∧
    (∀ os : List Outcome, (runRead st os).finished = false) ∧
    (∀ c ∈ st.children, c.status = ChildStatus.erroredC →
      ∀ os : List Outcome, c ∈ (runRead st os).children) := by
  have key : ∀ st2 : ReadSt, RRead xstats st2 → 0 < erroredCount st2 →
      st2.finished = false := by
    intro st2 h2 hp
    obtain ⟨_, _, hiff, _⟩ := rread_inv xstats st2 h2
    cases hfb : st2.finished
    · rfl
    · have hch : st2.children = [] := (hiff.mp hfb).2.2
      exact absurd hch (children_ne_nil_of_countErrored_pos hp)
  refine ⟨key st h he, ?_, ?_⟩
  · intro os
    exact key (runRead st os) (rread_runRead xstats st os h)
      (Nat.lt_of_lt_of_le he (erroredCount_le_runRead st os))
  · intro c hc hce os
    exact errored_mem_runRead st os c hc hce

/-- Witness for C10: a one-file directory whose File child errored is not
finished and stays unfinished after a further (vacuous) notification. -/
theorem errored_child_blocks_finished_witness :
    (onChildNotification (readEnter [⟨10, "a", "file"⟩]) Outcome.errorO).finished
        = false ∧
    (runRead (onChildNotification (readEnter [⟨10, "a", "file"⟩]) Outcome.errorO)
        [Outcome.finishO]).finished = false :=
  ⟨(errored_child_blocks_finished [⟨10, "a", "file"⟩] _
      (RRead.step Outcome.errorO RRead.enter) (by decide)).1,
    (errored_child_blocks_finished [⟨10, "a", "file"⟩] _
      (RRead.step Outcome.errorO RRead.enter) (by decide)).2.1 [Outcome.finishO]⟩

end Appifi
